import Mathlib

/-!
Verification of the AWACS image-annotation system against its specification.

The repository's source under version control is the React boundary layer
(`frontend/frontend/src/App.js`).  Pure fragments of that file (status badge
rendering, polling guards, the DB-fetch request builder, the date/timestamp
converters, the download and start-processing guards) are embedded below as
Lean functions, translated statement by statement from the JavaScript.

The backend (job controller and audit engine) is not part of the source
tree; where a claim concerns it, the relevant operation is modelled from the
specification text and the definition's doc comment says so.

JavaScript semantics used by the embedding:
* string truthiness: a string is falsy exactly when it is empty;
* `parseInt` is modelled on canonical decimal numerals via `String.toInt?`
  (a `none` result models `NaN`);
* `Date` arithmetic is exact integer arithmetic on milliseconds since the
  Unix epoch; the proleptic-Gregorian conversions performed by
  `Date.parse`/`Date.prototype.toISOString` are embedded by the civil-calendar
  day-number algorithms (`epochDaysOfCivil`, `civilOfEpochDays`).
-/

namespace Awacs

/-- A job snapshot as held by the React `App` component: `id` and `status`
are the fields the boundary layer branches on (both JavaScript strings). -/
structure JobView where
  id : String
  status : String
deriving DecidableEq, Repr

/-- Visual style of a status badge: background colour, text colour, label. -/
structure BadgeStyle where
  bg : String
  color : String
  text : String
deriving DecidableEq, Repr

/-- The `pending` entry of the `statusStyles` table in `StatusBadge`. -/
def pendingStyle : BadgeStyle := { bg := "#3d3d3d", color := "#a8a8a8", text := "Pending" }

/-- The own properties of the `statusStyles` object literal of the
`StatusBadge` component (`App.js` lines 8-15): a six-key map from status
strings to style objects.  This covers only the object's own keys; the
bracket lookup itself also consults the prototype chain, see
`statusBadge`. -/
def statusStyles (status : String) : Option BadgeStyle :=
  match status with
  | "pending" => some pendingStyle
  | "scraping" => some { bg := "#1a3a5c", color := "#4fc3f7", text := "Scraping" }
  | "processing" => some { bg := "#3d2c5c", color := "#b388ff", text := "AI Processing" }
  | "verifying_dually" => some { bg := "#4d3d1a", color := "#ffb74d", text := "Verifying Dually" }
  | "completed" => some { bg := "#1a4d3c", color := "#4caf50", text := "Completed" }
  | "failed" => some { bg := "#4d1a1a", color := "#ef5350", text := "Failed" }
  | _ => none

/-- String-keyed properties inherited from `Object.prototype` by a plain
object literal: bracket lookup with one of these names yields a truthy
non-style value (a built-in function; for `__proto__` the prototype object
itself), not `undefined`. -/
def objectProtoKeys : List String :=
  ["constructor", "hasOwnProperty", "isPrototypeOf", "propertyIsEnumerable",
   "toLocaleString", "toString", "valueOf", "__proto__",
   "__defineGetter__", "__defineSetter__", "__lookupGetter__", "__lookupSetter__"]

/-- Value bound to `style` in `StatusBadge`: either a style object of the
table, or a truthy `Object.prototype` member, whose `bg`, `color` and
`text` properties all read as `undefined`. -/
inductive RenderedStyle where
  | style (st : BadgeStyle)
  | protoObject
deriving DecidableEq, Repr

/-- The style actually rendered by `StatusBadge`
(`const style = statusStyles[status] || statusStyles.pending`, `App.js`
line 17).  The bracket lookup consults the prototype chain: an own key of
the table yields its style object; a status naming an `Object.prototype`
property yields that truthy inherited value, so the `||` fallback does not
fire; any other status yields `undefined` and the fallback selects the
Pending style. -/
def statusBadge (status : String) : RenderedStyle :=
  match statusStyles status with
  | some st => RenderedStyle.style st
  | none =>
    if status ∈ objectProtoKeys then RenderedStyle.protoObject
    else RenderedStyle.style pendingStyle

/-- Text rendered inside the badge span (`{style.text}`): `none` when the
property reads as `undefined` and React renders nothing. -/
def renderedText : RenderedStyle → Option String
  | RenderedStyle.style st => some st.text
  | RenderedStyle.protoObject => none

/-- The six status strings that are own keys of `statusStyles`. -/
def knownStatuses : List String :=
  ["pending", "scraping", "processing", "verifying_dually", "completed", "failed"]

/-- The six badge styles of the `statusStyles` table. -/
def knownStyles : List BadgeStyle :=
  (knownStatuses.filterMap statusStyles)

/-- Delay in milliseconds passed to `setInterval` by the polling effect
(`App.js` line 1249). -/
def pollIntervalDelayMs : Nat := 3000

/-- Guard of the polling `useEffect` (`App.js` line 1235): an interval is
installed exactly when a job is present and its status is `scraping`,
`processing` or `verifying_dually`. -/
def pollEffectStartsInterval (job : Option JobView) : Bool :=
  match job with
  | some j => j.status == "scraping" || j.status == "processing" || j.status == "verifying_dually"
  | none => false

/-- Stop condition inside each poll tick (`App.js` line 1243): the interval
is cleared when the freshly polled snapshot is `completed` or `failed`. -/
def pollTickClearsInterval (snapshot : JobView) : Bool :=
  snapshot.status == "completed" || snapshot.status == "failed"

/-- Base URL of the backend (`App.js` line 4). -/
def apiBase : String := "http://localhost:8000"

/-- URL opened by `handleDownload` for job `id`. -/
def downloadUrl (id : String) : String :=
  apiBase ++ "/api/jobs/" ++ id ++ "/download"

/-- `handleDownload` (`App.js` lines 1348-1352): returns the URL passed to
`window.open`, or `none` when no window is opened.  The JavaScript guard is
`job?.id && job?.status === 'completed'`, so it requires a truthy (non-empty)
`id` in addition to the `completed` status. -/
def handleDownload (job : Option JobView) : Option String :=
  match job with
  | some j => if j.id != "" && j.status == "completed" then some (downloadUrl j.id) else none
  | none => none

/-- Visibility of the Start Processing button (`App.js` line 1443):
rendered exactly when `job.status === 'pending'`. -/
def startButtonVisible (j : JobView) : Bool :=
  j.status == "pending"

/-- Backend job status values (spec section 3). -/
inductive JobStatus where
  | pending
  | scraping
  | processing
  | verifyingDually
  | completed
  | failed
deriving DecidableEq, Repr

/-- Backend job state, reduced to the fields the `start` contract touches. -/
structure BackendJob where
  id : Nat
  status : JobStatus
  error : Option String
deriving DecidableEq, Repr

/-- Modelled from the spec: the backend `start(job_id)` operation is not in
the source tree (only its caller `handleStartProcessing` is); spec section
4.1 states that `start(job_id)` fails with `InvalidStateError` unless the job
is `pending`, and otherwise transitions it to `processing`.  The result pairs
the job state after the call with the response (`{status}` on success, the
409-class error otherwise). -/
def start (j : BackendJob) : BackendJob × Except String JobStatus :=
  if j.status = JobStatus.pending then
    let j' := { j with status := JobStatus.processing }
    (j', Except.ok j'.status)
  else
    (j, Except.error "InvalidStateError")

end Awacs

namespace Awacs

/-- Claim C1: while a job's status is `scraping`, `processing` or
`verifying_dually` the boundary layer installs a polling interval with a
3000 ms delay requesting the job snapshot; a poll tick clears the interval
exactly when the polled snapshot reports `completed` or `failed`; and for a
job in any other status (or no job) no polling interval is installed. -/
theorem polling_guard_spec :
    (∀ j : JobView, pollEffectStartsInterval (some j) = true ↔
      (j.status = "scraping" ∨ j.status = "processing" ∨ j.status = "verifying_dually"))
    ∧ pollEffectStartsInterval none = false
    ∧ pollIntervalDelayMs = 3000
    ∧ (∀ s : JobView, pollTickClearsInterval s = true ↔
        (s.status = "completed" ∨ s.status = "failed")) := by
  refine ⟨fun j => ?_, rfl, rfl, fun s => ?_⟩
  · simp [pollEffectStartsInterval, or_assoc]
  · simp [pollTickClearsInterval]

/-- Witness for C1 at concrete snapshots. -/
theorem polling_guard_spec_witness :
    (pollEffectStartsInterval (some ⟨"7", "processing"⟩) = true)
    ∧ (pollTickClearsInterval ⟨"7", "completed"⟩ = true) :=
  ⟨(polling_guard_spec.1 ⟨"7", "processing"⟩).mpr (Or.inr (Or.inl rfl)),
   (polling_guard_spec.2.2.2 ⟨"7", "completed"⟩).mpr (Or.inl rfl)⟩

/-- Claim C3: the backend `start` (modelled from the spec) rejects with
`InvalidStateError` and leaves the job unchanged whenever the status is not
`pending`; from `pending` it transitions the job to `processing`; and the
boundary layer renders the Start Processing action exactly for a job whose
status string is `pending`. -/
theorem start_contract :
    (∀ j : BackendJob, j.status ≠ JobStatus.pending →
      start j = (j, Except.error "InvalidStateError"))
    ∧ (∀ j : BackendJob, j.status = JobStatus.pending →
      start j = ({ j with status := JobStatus.processing }, Except.ok JobStatus.processing))
    ∧ (∀ v : JobView, startButtonVisible v = true ↔ v.status = "pending") := by
  refine ⟨fun j h => ?_, fun j h => ?_, fun v => ?_⟩
  · simp [start, h]
  · simp [start, h]
  · simp [startButtonVisible]

/-- Witness for C3: a `completed` job is rejected unchanged, a `pending` job
starts processing, and the button shows exactly for the `pending` view. -/
theorem start_contract_witness :
    start ⟨1, JobStatus.completed, none⟩ = (⟨1, JobStatus.completed, none⟩,
      Except.error "InvalidStateError")
    ∧ start ⟨2, JobStatus.pending, none⟩ = (⟨2, JobStatus.processing, none⟩,
      Except.ok JobStatus.processing)
    ∧ startButtonVisible ⟨"2", "pending"⟩ = true :=
  ⟨start_contract.1 ⟨1, JobStatus.completed, none⟩ (by decide),
   start_contract.2.1 ⟨2, JobStatus.pending, none⟩ rfl,
   (start_contract.2.2 ⟨"2", "pending"⟩).mpr rfl⟩

/-- Counterexample for C4 as stated: a job snapshot with an empty (falsy)
`id` and status `completed` exists, yet `handleDownload` opens nothing,
because the JavaScript guard `job?.id && job?.status === 'completed'` also
requires a truthy `id`. -/
theorem download_iff_completed_counterexample :
    handleDownload (some ⟨"", "completed"⟩) = none
    ∧ (⟨"", "completed"⟩ : JobView).status = "completed" := by
  exact ⟨rfl, rfl⟩

/-- Claim C4, amended: `handleDownload` opens the download URL if and only
if a job exists whose `id` is truthy (non-empty) and whose status is exactly
`completed`; the URL opened is that job's `GET /api/jobs/{id}/download`. -/
theorem download_iff_completed :
    ∀ job : Option JobView,
      (∃ u, handleDownload job = some u) ↔
      (∃ j : JobView, job = some j ∧ j.id ≠ "" ∧ j.status = "completed") := by
  intro job
  constructor
  · intro ⟨u, hu⟩
    match job with
    | none => simp [handleDownload] at hu
    | some j =>
      refine ⟨j, rfl, ?_, ?_⟩ <;>
      · simp only [handleDownload] at hu
        by_cases h1 : j.id = "" <;> by_cases h2 : j.status = "completed" <;>
          simp [h1, h2] at hu ⊢
  · intro ⟨j, hj, hid, hst⟩
    subst hj
    exact ⟨downloadUrl j.id, by simp [handleDownload, hid, hst]⟩

/-- Witness for C4 (amended) at a concrete completed job. -/
theorem download_iff_completed_witness :
    ∃ u, handleDownload (some ⟨"42", "completed"⟩) = some u :=
  (download_iff_completed (some ⟨"42", "completed"⟩)).mpr
    ⟨⟨"42", "completed"⟩, rfl, by decide, rfl⟩

/-- A hit in the own-property table means the status is one of the six
known keys and the style one of the six table styles. -/
theorem statusStyles_eq_some {s : String} {st : BadgeStyle}
    (h : statusStyles s = some st) : st ∈ knownStyles ∧ s ∈ knownStatuses := by
  by_cases h1 : s = "pending" <;> by_cases h2 : s = "scraping" <;>
    by_cases h3 : s = "processing" <;> by_cases h4 : s = "verifying_dually" <;>
    by_cases h5 : s = "completed" <;> by_cases h6 : s = "failed" <;>
    simp_all [statusStyles, knownStyles, knownStatuses, pendingStyle]

/-- A status outside the six known keys misses the own-property table. -/
theorem statusStyles_eq_none {s : String} (h : s ∉ knownStatuses) :
    statusStyles s = none := by
  simp only [knownStatuses, List.mem_cons, List.not_mem_nil, or_false, not_or] at h
  obtain ⟨h1, h2, h3, h4, h5, h6⟩ := h
  simp [statusStyles, h1, h2, h3, h4, h5, h6]

/-- Counterexample for C10 as stated: `"constructor"` is outside the six
known status keys, yet the badge does not fall back to the Pending style
and text: the bracket lookup hits the truthy inherited
`Object.prototype.constructor`, the `||` fallback does not fire, and the
badge renders the raw prototype value with no text. -/
theorem status_badge_total_counterexample :
    ("constructor" ∈ knownStatuses → False)
    ∧ statusBadge "constructor" ≠ RenderedStyle.style pendingStyle
    ∧ renderedText (statusBadge "constructor") = none :=
  ⟨by decide, by decide, by decide⟩

/-- Claim C10, amended: `statusBadge` renders a badge for every status
string: the bound style is always either one of the six table styles or a
truthy inherited `Object.prototype` member; a status outside both the six
known keys and the `Object.prototype` property names falls back to the
`Pending` style and text; a status naming an `Object.prototype` property
(such as `constructor`) suppresses the fallback and the badge renders with
undefined style properties and no text. -/
theorem status_badge_total :
    ∀ s : String,
      ((∃ st, statusBadge s = RenderedStyle.style st ∧ st ∈ knownStyles)
        ∨ (s ∈ objectProtoKeys ∧ statusBadge s = RenderedStyle.protoObject))
      ∧ (s ∉ knownStatuses → s ∉ objectProtoKeys →
          statusBadge s = RenderedStyle.style pendingStyle
          ∧ renderedText (statusBadge s) = some "Pending")
      ∧ (s ∈ objectProtoKeys → statusBadge s = RenderedStyle.protoObject
          ∧ renderedText (statusBadge s) = none) := by
  intro s
  refine ⟨?_, ?_, ?_⟩
  · cases hss : statusStyles s with
    | some st =>
      exact Or.inl ⟨st, by simp [statusBadge, hss], (statusStyles_eq_some hss).1⟩
    | none =>
      by_cases hp : s ∈ objectProtoKeys
      · exact Or.inr ⟨hp, by simp [statusBadge, hss, hp]⟩
      · exact Or.inl ⟨pendingStyle, by simp [statusBadge, hss, hp], by decide⟩
  · intro h1 h2
    have hss := statusStyles_eq_none h1
    constructor <;> simp [statusBadge, hss, h2, renderedText, pendingStyle]
  · intro hp
    have hss : statusStyles s = none := by
      cases hss : statusStyles s with
      | none => rfl
      | some st =>
        have h6 := (statusStyles_eq_some hss).2
        simp only [knownStatuses, List.mem_cons, List.not_mem_nil, or_false] at h6
        rcases h6 with h | h | h | h | h | h <;> subst h <;>
          exact absurd hp (by decide)
    constructor <;> simp [statusBadge, hss, hp, renderedText]

/-- Witness for C10 (amended): an unknown status string renders the Pending
badge, and the inherited name `"constructor"` renders no text. -/
theorem status_badge_total_witness :
    (statusBadge "bogus" = RenderedStyle.style pendingStyle
      ∧ renderedText (statusBadge "bogus") = some "Pending")
    ∧ (statusBadge "constructor" = RenderedStyle.protoObject
      ∧ renderedText (statusBadge "constructor") = none) :=
  ⟨(status_badge_total "bogus").2.1 (by decide) (by decide),
   (status_badge_total "constructor").2.2 (by decide)⟩

end Awacs

namespace Awacs

/-- Value of a list of decimal digit characters, `none` on a non-digit. -/
def decDigitsVal : List Char → Nat → Option Nat
  | [], acc => some acc
  | c :: rest, acc =>
    if c.isDigit then decDigitsVal rest (10 * acc + (c.toNat - 48)) else none

/-- JavaScript `parseInt(s)` modelled on canonical decimal numerals:
`some n` when `s` is the decimal representation of an integer (optionally
signed), `none` standing for `NaN`. -/
def jsParseInt (s : String) : Option Int :=
  match s.data with
  | '-' :: c :: cs =>
    if c.isDigit then (decDigitsVal (c :: cs) 0).map (fun n => -(n : Int)) else none
  | c :: cs =>
    if c.isDigit then (decDigitsVal (c :: cs) 0).map (fun n => (n : Int)) else none
  | [] => none

/-- Effective minimum timestamp displayed and used for a DB fetch
(`const actualFromTs = parseInt(fromTimestamp)`, `App.js` line 796). -/
def actualFromTs (fromTimestamp _toTimestamp : String) : Option Int :=
  jsParseInt fromTimestamp

/-- Effective maximum timestamp for a DB fetch (`App.js` lines 797-799):
when the two timestamp fields are equal the backend expands the window by
86399 seconds (a full 24-hour day), otherwise the field is used as given. -/
def actualToTs (fromTimestamp toTimestamp : String) : Option Int :=
  if fromTimestamp == toTimestamp then
    (jsParseInt toTimestamp).map (· + 86399)
  else
    jsParseInt toTimestamp

/-- Claim C2: when the from-timestamp equals the to-timestamp the effective
window is the full 24-hour period `[ts, ts + 86399]` (minimum unchanged);
when the two differ, both are used exactly as given. -/
theorem same_timestamp_window (f t : String) (n : Int) (hn : jsParseInt t = some n) :
    (f = t → actualFromTs f t = jsParseInt f ∧ actualToTs f t = some (n + 86399))
    ∧ (f ≠ t → actualFromTs f t = jsParseInt f ∧ actualToTs f t = some n) := by
  constructor
  · intro h
    subst h
    exact ⟨rfl, by simp [actualToTs, hn]⟩
  · intro h
    refine ⟨rfl, ?_⟩
    simp only [actualToTs, beq_iff_eq]
    rw [if_neg h, hn]

/-- Witness for C2: equal fields `"1768262400"` expand the maximum by 86399,
distinct fields are used as given. -/
theorem same_timestamp_window_witness :
    (actualToTs "1768262400" "1768262400" = some (1768262400 + 86399))
    ∧ (actualToTs "1768262400" "1768348799" = some 1768348799) :=
  ⟨((same_timestamp_window "1768262400" "1768262400" 1768262400 (by decide)).1 rfl).2,
   ((same_timestamp_window "1768262400" "1768348799" 1768348799 (by decide)).2 (by decide)).2⟩

/-- State of the `DBFetchSection` component that `handleFetch` reads
(`App.js` lines 432-445): the seven text fields, the two booleans and the
selected category filter list. -/
structure DBFetchState where
  clientId : String
  clientSecret : String
  grantType : String
  fromTimestamp : String
  toTimestamp : String
  listingStart : String
  listingEnd : String
  credentialsFromConfig : Bool
  isFetching : Bool
  selectedCategories : List String
deriving DecidableEq, Repr

/-- JSON body of `POST /api/db-fetch` as built by `handleFetch`
(`App.js` lines 563-584).  `Option` fields model keys that are present only
conditionally; the four timestamp/listing fields hold `parseInt` results
(`none` standing for `NaN`). -/
structure DbFetchPayload where
  min_last_update : Option Int
  max_last_update : Option Int
  listing_start : Option Int
  listing_end : Option Int
  category_filters : Option (List String)
  client_id : Option String
  client_secret : Option String
  grant_type : Option String
deriving DecidableEq, Repr

/-- The `canFetch` guard (`App.js` line 531), with JavaScript string
truthiness (a string is truthy exactly when non-empty). -/
def canFetch (s : DBFetchState) : Bool :=
  s.clientId != "" && (s.clientSecret != "" || s.credentialsFromConfig)
    && s.grantType != "" && s.fromTimestamp != "" && s.toTimestamp != ""
    && s.listingStart != "" && s.listingEnd != "" && !s.isFetching

/-- `handleFetch` (`App.js` lines 533-595) up to its network effect: returns
the payload of the `POST /api/db-fetch` request it issues, or `none` when the
`canFetch` guard rejects and no request is made. -/
def handleFetch (s : DBFetchState) : Option DbFetchPayload :=
  if canFetch s then
    some {
      min_last_update := jsParseInt s.fromTimestamp
      max_last_update := jsParseInt s.toTimestamp
      listing_start := jsParseInt s.listingStart
      listing_end := jsParseInt s.listingEnd
      category_filters :=
        if s.selectedCategories.length > 0 then some s.selectedCategories else none
      client_id :=
        if s.clientId != "" && !s.credentialsFromConfig then some s.clientId else none
      client_secret := if s.clientSecret != "" then some s.clientSecret else none
      grant_type := if s.grantType != "" then some s.grantType else none }
  else
    none

/-- Claim C8: `handleFetch` issues the POST exactly when `clientId` is
non-empty, `clientSecret` is non-empty or credentials came from config,
`grantType` and the four timestamp/listing fields are non-empty, and no
fetch is in flight; the body always carries the four `parseInt`-converted
integer fields, carries `category_filters` exactly when at least one
category is selected, and carries `client_id` exactly when the credentials
were entered rather than loaded from config. -/
theorem handle_fetch_spec (s : DBFetchState) :
    ((handleFetch s).isSome = true ↔
      (s.clientId ≠ "" ∧ (s.clientSecret ≠ "" ∨ s.credentialsFromConfig = true)
        ∧ s.grantType ≠ "" ∧ s.fromTimestamp ≠ "" ∧ s.toTimestamp ≠ ""
        ∧ s.listingStart ≠ "" ∧ s.listingEnd ≠ "" ∧ s.isFetching = false))
    ∧ (∀ p : DbFetchPayload, handleFetch s = some p →
        p.min_last_update = jsParseInt s.fromTimestamp
        ∧ p.max_last_update = jsParseInt s.toTimestamp
        ∧ p.listing_start = jsParseInt s.listingStart
        ∧ p.listing_end = jsParseInt s.listingEnd
        ∧ (p.category_filters.isSome = true ↔ s.selectedCategories ≠ [])
        ∧ (p.client_id.isSome = true ↔ s.credentialsFromConfig = false)) := by
  constructor
  · simp only [handleFetch]
    by_cases h : canFetch s = true
    · simp only [h, if_pos rfl, Option.isSome_some, true_iff]
      simp only [canFetch, Bool.and_eq_true, bne_iff_ne, Bool.or_eq_true,
        Bool.not_eq_true', ne_eq] at h
      tauto
    · rw [if_neg h]
      simp only [Option.isSome_none, Bool.false_eq_true, false_iff]
      intro hc
      apply h
      simp only [canFetch, Bool.and_eq_true, bne_iff_ne, Bool.or_eq_true,
        Bool.not_eq_true', ne_eq]
      tauto
  · intro p hp
    simp only [handleFetch] at hp
    by_cases h : canFetch s = true
    · rw [if_pos h] at hp
      have hcan := h
      simp only [canFetch, Bool.and_eq_true, bne_iff_ne, Bool.or_eq_true,
        Bool.not_eq_true', ne_eq] at hcan
      cases hp
      refine ⟨rfl, rfl, rfl, rfl, ?_, ?_⟩
      · by_cases hc : s.selectedCategories = [] <;> simp [hc, List.length_pos]
      · have hid : s.clientId ≠ "" := hcan.1.1.1.1.1.1.1
        by_cases hcfg : s.credentialsFromConfig <;> simp [hid, hcfg]
    · rw [if_neg h] at hp
      exact absurd hp (by simp)

/-- Witness for C8 at a concrete fillable state: the request is issued with
integer window fields, no category filters and a user-entered client id. -/
theorem handle_fetch_spec_witness :
    (handleFetch ⟨"id1", "sec", "client_credentials", "1768262400", "1768348799",
        "0", "1000", false, false, []⟩).isSome = true
    ∧ (⟨some 1768262400, some 1768348799, some 0, some 1000, none, some "id1",
        some "sec", some "client_credentials"⟩ : DbFetchPayload).min_last_update
      = jsParseInt "1768262400"
    ∧ ((⟨some 1768262400, some 1768348799, some 0, some 1000, none, some "id1",
        some "sec", some "client_credentials"⟩ : DbFetchPayload).client_id.isSome = true
        ↔ (false : Bool) = false) := by
  have h := handle_fetch_spec ⟨"id1", "sec", "client_credentials", "1768262400",
    "1768348799", "0", "1000", false, false, []⟩
  have h2 := h.2 ⟨some 1768262400, some 1768348799, some 0, some 1000, none, some "id1",
    some "sec", some "client_credentials"⟩ (by decide)
  exact ⟨h.1.mpr ⟨by decide, Or.inl (by decide), by decide, by decide, by decide,
    by decide, by decide, rfl⟩, h2.1, h2.2.2.2.2.2⟩

end Awacs

namespace Awacs

/-- A per-listing classification record as consumed by the audit engine:
the external ad identifier and the (AI-produced or manually labelled)
category string. -/
structure AdRec where
  ad_id : Nat
  category : String
deriving DecidableEq, Repr

/-- Lower-case a single ASCII letter. -/
def lowerChar (c : Char) : Char :=
  if 'A' ≤ c ∧ c ≤ 'Z' then Char.ofNat (c.toNat + 32) else c

/-- Whitespace test used by trimming. -/
def isSpaceChar (c : Char) : Bool :=
  c == ' ' || c == '\t' || c == '\n' || c == '\r'

/-- Drop leading whitespace characters. -/
def dropLeadingSpaces : List Char → List Char
  | [] => []
  | c :: cs => if isSpaceChar c then dropLeadingSpaces cs else c :: cs

/-- Trim whitespace from both ends of a character list. -/
def trimCharList (cs : List Char) : List Char :=
  dropLeadingSpaces ((dropLeadingSpaces cs.reverse).reverse)

/-- Modelled from the spec: the audit engine's category normalization
(section 4.4: case-fold and trim before comparing; the synonym table is an
injectable configuration whose exact contents the spec leaves open, so it is
modelled as the identity). -/
def normalizeCategory (s : String) : String :=
  String.mk (trimCharList (s.data.map lowerChar))

/-- Modelled from the spec: an ad is counted `inactive` when the manual
label marks it as inactive/delisted (section 4.4). -/
def isInactiveLabel (s : String) : Bool :=
  normalizeCategory s == "inactive"

/-- Join on the `ad_id` key: the manual record matching an ad id, if any. -/
def lookupById (recs : List AdRec) (k : Nat) : Option AdRec :=
  recs.find? (fun r => r.ad_id == k)

/-- Per-ad audit outcome (spec section 4.4). -/
inductive AuditOutcome where
  | accepted
  | rejected
  | inactive
deriving DecidableEq, Repr

/-- Modelled from the spec: classification outcome of one AI record against
the manual set (section 4.4): `none` when the ad is present in only one set,
`inactive` when the manual label marks it inactive, otherwise `accepted` or
`rejected` by comparing normalized categories. -/
def compareAd (a : AdRec) (manual : List AdRec) : Option AuditOutcome :=
  match lookupById manual a.ad_id with
  | none => none
  | some m =>
    if isInactiveLabel m.category then some AuditOutcome.inactive
    else if normalizeCategory a.category == normalizeCategory m.category then
      some AuditOutcome.accepted
    else some AuditOutcome.rejected

/-- Number of AI records with a given outcome against the manual set. -/
def countOutcome (ai manual : List AdRec) (o : AuditOutcome) : Nat :=
  ai.countP (fun a => compareAd a manual == some o)

/-- Number of AI records whose ad id also occurs in the manual set. -/
def countMatching (ai manual : List AdRec) : Nat :=
  ai.countP (fun a => (compareAd a manual).isSome)

/-- Round a rational to one decimal place (round half up). -/
def roundTo1 (q : ℚ) : ℚ :=
  (⌊q * 10 + 1 / 2⌋ : ℚ) / 10

/-- Percentage `num / den`, rounded to one decimal place, with the defined
sentinel `0` when the denominator is zero (spec section 4.4). -/
def pct (num den : Nat) : ℚ :=
  if den = 0 then 0 else roundTo1 (100 * (num : ℚ) / (den : ℚ))

/-- Accuracy summary of an audit (spec section 3, `AuditResult.summary`). -/
structure AuditSummary where
  active_accuracy : ℚ
  global_accuracy : ℚ
  total_audited : Nat
  total_accepted : Nat
  total_rejected : Nat
  total_inactive : Nat
deriving DecidableEq, Repr

/-- File statistics of an audit (spec section 3, `AuditResult.stats`). -/
structure AuditStats where
  ai_file_total_ads : Nat
  manual_file_total_ads : Nat
  matching_ads_compared : Nat
deriving DecidableEq, Repr

/-- Result of an accuracy audit (spec section 3). -/
structure AuditResult where
  summary : AuditSummary
  stats : AuditStats
deriving DecidableEq, Repr

/-- Modelled from the spec: the stateless audit engine
`audit(ai_records, manual_records) → AuditResult` (section 4.4).  Ads present
in only one set are excluded from all denominators but counted in each
file's own total; `active_accuracy = accepted / (accepted + rejected)` over
non-inactive matched ads and
`global_accuracy = accepted / (accepted + rejected + inactive)`, both as
percentages rounded to one decimal place with sentinel `0` on a zero
denominator. -/
def audit (ai manual : List AdRec) : AuditResult :=
  { summary :=
    { active_accuracy :=
        pct (countOutcome ai manual AuditOutcome.accepted)
          (countOutcome ai manual AuditOutcome.accepted
            + countOutcome ai manual AuditOutcome.rejected)
      global_accuracy :=
        pct (countOutcome ai manual AuditOutcome.accepted)
          (countOutcome ai manual AuditOutcome.accepted
            + countOutcome ai manual AuditOutcome.rejected
            + countOutcome ai manual AuditOutcome.inactive)
      total_audited := countMatching ai manual
      total_accepted := countOutcome ai manual AuditOutcome.accepted
      total_rejected := countOutcome ai manual AuditOutcome.rejected
      total_inactive := countOutcome ai manual AuditOutcome.inactive }
    stats :=
    { ai_file_total_ads := ai.length
      manual_file_total_ads := manual.length
      matching_ads_compared := countMatching ai manual } }

/-- A key-nodup list can be permuted without changing `ad_id` lookups. -/
theorem lookupById_perm {B B' : List AdRec} (hp : B.Perm B')
    (hnd : (B.map AdRec.ad_id).Nodup) (k : Nat) :
    lookupById B k = lookupById B' k := by
  unfold lookupById
  cases hB : B.find? (fun r => r.ad_id == k) with
  | none =>
    symm
    rw [List.find?_eq_none]
    intro x hx
    simpa using List.find?_eq_none.mp hB x (hp.mem_iff.mpr hx)
  | some b =>
    have hmem : b ∈ B := List.mem_of_find?_eq_some hB
    have hpb : b.ad_id = k := by simpa using List.find?_some hB
    cases hB' : B'.find? (fun r => r.ad_id == k) with
    | none =>
      have := List.find?_eq_none.mp hB' b (hp.mem_iff.mp hmem)
      simp [hpb] at this
    | some b' =>
      have hmem' : b' ∈ B := hp.mem_iff.mpr (List.mem_of_find?_eq_some hB')
      have hpb' : b'.ad_id = k := by simpa using List.find?_some hB'
      have : b = b' :=
        List.inj_on_of_nodup_map hnd hmem hmem' (by rw [hpb, hpb'])
      rw [this]

/-- Permuting a key-nodup manual set does not change any ad's outcome. -/
theorem compareAd_perm {B B' : List AdRec} (hp : B.Perm B')
    (hnd : (B.map AdRec.ad_id).Nodup) (a : AdRec) :
    compareAd a B = compareAd a B' := by
  unfold compareAd
  rw [lookupById_perm hp hnd]

/-- Claim C6: `audit` is deterministic and order-independent: identical
inputs give identical results, and permuting the records of either input
set (manual keys being distinct, as in a record set) leaves the
`AuditResult` unchanged. -/
theorem audit_order_independent :
    (∀ A B : List AdRec, audit A B = audit A B)
    ∧ (∀ A A' B B' : List AdRec, A.Perm A' → B.Perm B' →
        (B.map AdRec.ad_id).Nodup → audit A B = audit A' B') := by
  refine ⟨fun A B => rfl, fun A A' B B' hA hB hnd => ?_⟩
  have hout : ∀ o : AuditOutcome, countOutcome A B o = countOutcome A' B' o := by
    intro o
    unfold countOutcome
    rw [List.countP_congr (fun a _ => by rw [compareAd_perm hB hnd a]),
      hA.countP_eq]
  have hmat : countMatching A B = countMatching A' B' := by
    unfold countMatching
    rw [List.countP_congr (fun a _ => by rw [compareAd_perm hB hnd a]),
      hA.countP_eq]
  unfold audit
  rw [hout AuditOutcome.accepted, hout AuditOutcome.rejected,
    hout AuditOutcome.inactive, hmat, hA.length_eq, hB.length_eq]

/-- Witness for C6: two-element sets permuted in both inputs. -/
theorem audit_order_independent_witness :
    audit [⟨1, "Dump Truck"⟩, ⟨2, "Cargo Van"⟩] [⟨1, "Dump Truck"⟩, ⟨2, "Box Truck"⟩]
      = audit [⟨2, "Cargo Van"⟩, ⟨1, "Dump Truck"⟩] [⟨2, "Box Truck"⟩, ⟨1, "Dump Truck"⟩] :=
  audit_order_independent.2 _ _ _ _ (by decide) (by decide) (by decide)

/-- The AI record set of the spec's worked audit example (section 8). -/
def aiSample : List AdRec :=
  [⟨1, "Dump Truck"⟩, ⟨2, "Cargo Van"⟩, ⟨3, "Inactive"⟩]

/-- The manual record set of the spec's worked audit example (section 8). -/
def manualSample : List AdRec :=
  [⟨1, "Dump Truck"⟩, ⟨2, "Box Truck"⟩, ⟨3, "Inactive"⟩]

/-- Claim C5: on the spec's worked example the audit yields one accepted,
one rejected and one inactive ad, `active_accuracy = 50.0` and
`global_accuracy = 33.3` (percentages rounded to one decimal place). -/
theorem audit_example_vector :
    audit aiSample manualSample =
      { summary :=
        { active_accuracy := 50
          global_accuracy := 333 / 10
          total_audited := 3
          total_accepted := 1
          total_rejected := 1
          total_inactive := 1 }
        stats :=
        { ai_file_total_ads := 3
          manual_file_total_ads := 3
          matching_ads_compared := 3 } } := by
  have hacc : countOutcome aiSample manualSample AuditOutcome.accepted = 1 := by decide
  have hrej : countOutcome aiSample manualSample AuditOutcome.rejected = 1 := by decide
  have hina : countOutcome aiSample manualSample AuditOutcome.inactive = 1 := by decide
  have hmat : countMatching aiSample manualSample = 3 := by decide
  have hla : aiSample.length = 3 := rfl
  have hlm : manualSample.length = 3 := rfl
  simp only [audit, hacc, hrej, hina, hmat, hla, hlm, AuditResult.mk.injEq,
    AuditSummary.mk.injEq, AuditStats.mk.injEq]
  norm_num [pct, roundTo1, Int.floor_eq_iff]

/-- Every percentage produced by `pct` is an integer number of tenths
between 0.0 and 100.0. -/
theorem pct_shape (num den : Nat) (hle : num ≤ den) :
    ∃ z : ℤ, pct num den = (z : ℚ) / 10 ∧ 0 ≤ z ∧ z ≤ 1000 := by
  unfold pct
  by_cases h : den = 0
  · exact ⟨0, by simp [h]⟩
  · rw [if_neg h]
    refine ⟨⌊100 * (num : ℚ) / (den : ℚ) * 10 + 1 / 2⌋, rfl, ?_, ?_⟩
    · have hden : (0 : ℚ) < (den : ℚ) := by positivity
      have h0 : (0 : ℚ) ≤ 100 * (num : ℚ) / (den : ℚ) := by positivity
      have : (0 : ℤ) ≤ ⌊(0 : ℚ)⌋ := by simp
      refine Int.le_floor.mpr ?_
      push_cast
      linarith
    · have hden : (0 : ℚ) < (den : ℚ) := by positivity
      have h1 : 100 * (num : ℚ) / (den : ℚ) ≤ 100 := by
        rw [div_le_iff₀ hden]
        have : (num : ℚ) ≤ (den : ℚ) := by exact_mod_cast hle
        nlinarith
      have h2 : 100 * (num : ℚ) / (den : ℚ) * 10 + 1 / 2 ≤ 2001 / 2 := by linarith
      calc ⌊100 * (num : ℚ) / (den : ℚ) * 10 + 1 / 2⌋
          ≤ ⌊(2001 : ℚ) / 2⌋ := Int.floor_le_floor h2
        _ = 1000 := by norm_num [Int.floor_eq_iff]

/-- Claim C7: when the two record sets share no ad id (all accuracy
denominators are zero) the audit still returns the defined sentinel `0` for
both accuracies instead of failing; and in all cases both accuracies are
percentages rounded to one decimal place (an integer number of tenths
between 0 and 100 percent). -/
theorem audit_no_matching_sentinel :
    (∀ A B : List AdRec, (∀ a ∈ A, ∀ b ∈ B, a.ad_id ≠ b.ad_id) →
      (audit A B).summary.active_accuracy = 0
      ∧ (audit A B).summary.global_accuracy = 0)
    ∧ (∀ A B : List AdRec, ∃ n m : ℤ,
        (audit A B).summary.active_accuracy = (n : ℚ) / 10
        ∧ (audit A B).summary.global_accuracy = (m : ℚ) / 10
        ∧ 0 ≤ n ∧ n ≤ 1000 ∧ 0 ≤ m ∧ m ≤ 1000) := by
  constructor
  · intro A B hdisj
    have hnone : ∀ a ∈ A, compareAd a B = none := by
      intro a ha
      unfold compareAd lookupById
      cases hf : B.find? (fun r => r.ad_id == a.ad_id) with
      | none => rfl
      | some m =>
        have hm : m ∈ B := List.mem_of_find?_eq_some hf
        have heq : m.ad_id = a.ad_id := by simpa using List.find?_some hf
        exact absurd heq.symm (hdisj a ha m hm)
    have hcnt : ∀ o : AuditOutcome, countOutcome A B o = 0 := by
      intro o
      exact List.countP_eq_zero.mpr (fun a ha => by simp [hnone a ha])
    constructor <;> simp [audit, hcnt, pct]
  · intro A B
    obtain ⟨n, hn, hn0, hn1⟩ := pct_shape
      (countOutcome A B AuditOutcome.accepted)
      (countOutcome A B AuditOutcome.accepted + countOutcome A B AuditOutcome.rejected)
      (Nat.le_add_right _ _)
    obtain ⟨m, hm, hm0, hm1⟩ := pct_shape
      (countOutcome A B AuditOutcome.accepted)
      (countOutcome A B AuditOutcome.accepted + countOutcome A B AuditOutcome.rejected
        + countOutcome A B AuditOutcome.inactive)
      (by omega)
    exact ⟨n, m, hn, hm, hn0, hn1, hm0, hm1⟩

/-- Witness for C7: disjoint singleton sets yield both sentinels. -/
theorem audit_no_matching_sentinel_witness :
    ((audit [⟨1, "Dump Truck"⟩] [⟨2, "Cargo Van"⟩]).summary.active_accuracy = 0
      ∧ (audit [⟨1, "Dump Truck"⟩] [⟨2, "Cargo Van"⟩]).summary.global_accuracy = 0)
    ∧ (∃ n m : ℤ,
        (audit [⟨1, "Dump Truck"⟩] [⟨2, "Cargo Van"⟩]).summary.active_accuracy = (n : ℚ) / 10
        ∧ (audit [⟨1, "Dump Truck"⟩] [⟨2, "Cargo Van"⟩]).summary.global_accuracy = (m : ℚ) / 10
        ∧ 0 ≤ n ∧ n ≤ 1000 ∧ 0 ≤ m ∧ m ≤ 1000) :=
  ⟨audit_no_matching_sentinel.1 _ _ (by decide),
   audit_no_matching_sentinel.2 [⟨1, "Dump Truck"⟩] [⟨2, "Cargo Van"⟩]⟩

end Awacs

namespace Awacs

/-!
Embedding of the date and timestamp converters (`App.js` lines 502-514).

`dateToTimestamp` evaluates `Date.parse(dateString + 'T00:00:00Z') / 1000`:
the Unix seconds of UTC midnight of a proleptic-Gregorian civil date.
`timestampToDate` evaluates `new Date(ts * 1000).toISOString().split('T')[0]`:
the UTC civil date of a timestamp.  The calendar conversions the JavaScript
engine performs are embedded by the standard civil-calendar day-number
algorithms over `Int` with floor division (Lean's `Int` division), which
compute exactly the day numbering mandated by ECMA-262 (days since
1970-01-01, negative before the epoch).
-/

/-- Gregorian leap-year test. -/
def isLeapYear (y : Int) : Bool :=
  (y % 4 == 0 && y % 100 != 0) || y % 400 == 0

/-- Length of month `m` of year `y`. -/
def daysInMonth (y m : Int) : Int :=
  if m = 2 then (if isLeapYear y then 29 else 28)
  else if m = 4 ∨ m = 6 ∨ m = 9 ∨ m = 11 then 30
  else 31

/-- A civil date that a four-digit `YYYY-MM-DD` string can denote. -/
@[reducible] def validDate (y m d : Int) : Prop :=
  0 ≤ y ∧ y ≤ 9999 ∧ 1 ≤ m ∧ m ≤ 12 ∧ 1 ≤ d ∧ d ≤ daysInMonth y m

/-- Year shifted so that the year starts in March (leap day last). -/
def shiftedYear (y m : Int) : Int :=
  y - (if m ≤ 2 then 1 else 0)

/-- 400-year era of the shifted year. -/
def forwardEra (y m : Int) : Int :=
  shiftedYear y m / 400

/-- Year of era, in `[0, 399]`. -/
def forwardYoe (y m : Int) : Int :=
  shiftedYear y m - forwardEra y m * 400

/-- Month index counted from March (`March = 0`, ..., `February = 11`). -/
def forwardMp (m : Int) : Int :=
  (m + 9) % 12

/-- Day of the March-based year, in `[0, 365]`. -/
def forwardDoy (m d : Int) : Int :=
  (153 * forwardMp m + 2) / 5 + d - 1

/-- Day of era, in `[0, 146096]`. -/
def forwardDoe (y m d : Int) : Int :=
  365 * forwardYoe y m + forwardYoe y m / 4 - forwardYoe y m / 100 + forwardDoy m d

/-- Day number since the Unix epoch of a civil date: the calendar
computation performed by `Date.parse` on `YYYY-MM-DDT00:00:00Z`. -/
def epochDaysOfCivil (y m d : Int) : Int :=
  forwardEra y m * 146097 + forwardDoe y m d - 719468

/-- `dateToTimestamp` (`App.js` lines 502-506) on a parsed date: Unix
seconds of UTC midnight. -/
def dateToTimestamp (y m d : Int) : Int :=
  epochDaysOfCivil y m d * 86400

/-- Era of a day number (inverse conversion, first step). -/
def civilEra (z : Int) : Int :=
  (z + 719468) / 146097

/-- Day of era of a day number. -/
def civilDoe (z : Int) : Int :=
  z + 719468 - civilEra z * 146097

/-- Year of era recovered from the day of era. -/
def civilYoe (z : Int) : Int :=
  (civilDoe z - civilDoe z / 1460 + civilDoe z / 36524 - civilDoe z / 146096) / 365

/-- Day of the March-based year recovered from the day of era. -/
def civilDoy (z : Int) : Int :=
  civilDoe z - (365 * civilYoe z + civilYoe z / 4 - civilYoe z / 100)

/-- March-based month index recovered from the day of year. -/
def civilMp (z : Int) : Int :=
  (5 * civilDoy z + 2) / 153

/-- Day of month of a day number. -/
def civilDay (z : Int) : Int :=
  civilDoy z - (153 * civilMp z + 2) / 5 + 1

/-- Civil month of a day number. -/
def civilMonth (z : Int) : Int :=
  civilMp z + (if civilMp z < 10 then 3 else -9)

/-- Civil year of a day number. -/
def civilYear (z : Int) : Int :=
  civilYoe z + civilEra z * 400 + (if civilMonth z ≤ 2 then 1 else 0)

/-- Civil date of a day number since the Unix epoch: the calendar
computation performed by `Date.prototype.toISOString` for the date part. -/
def civilOfEpochDays (z : Int) : Int × Int × Int :=
  (civilYear z, civilMonth z, civilDay z)

/-- `timestampToDate` (`App.js` lines 509-514) on a parsed timestamp: the
UTC civil date rendered by `toISOString().split('T')[0]`. -/
def timestampToDate (t : Int) : Int × Int × Int :=
  civilOfEpochDays (t / 86400)

/-- Parse a `YYYY-MM-DD` string into a civil date triple. -/
def parseIsoDate (s : String) : Option (Int × Int × Int) :=
  match s.splitOn "-" with
  | [ys, ms, ds] =>
    if ys.length = 4 ∧ ms.length = 2 ∧ ds.length = 2 then
      match decDigitsVal ys.data 0, decDigitsVal ms.data 0, decDigitsVal ds.data 0 with
      | some yv, some mv, some dv => some ((yv : Int), (mv : Int), (dv : Int))
      | _, _, _ => none
    else none
  | _ => none

/-- Left-pad a numeral with zeros to a given width. -/
def padNum (width : Nat) (n : Nat) : String :=
  let s := toString n
  if s.length < width then String.mk (List.replicate (width - s.length) '0') ++ s else s

/-- Render a civil date triple as `YYYY-MM-DD`. -/
def renderIsoDate : Int × Int × Int → String
  | (y, m, d) => padNum 4 y.toNat ++ "-" ++ padNum 2 m.toNat ++ "-" ++ padNum 2 d.toNat

/-- `dateToTimestamp` (`App.js` lines 502-506) at the string level: the
empty string is returned unchanged (`if (!dateString) return ''`), an
unparsable string yields `"NaN"` (`Date.parse` returns `NaN`), otherwise the
decimal numeral of the Unix seconds. -/
def dateToTimestampStr (s : String) : String :=
  if s = "" then ""
  else
    match parseIsoDate s with
    | some (y, m, d) => toString (dateToTimestamp y m d)
    | none => "NaN"

/-- `timestampToDate` (`App.js` lines 509-514) at the string level: the
empty string is returned unchanged (`if (!timestamp) return ''`), a
non-numeric string makes `toISOString` throw (modelled by `none`), otherwise
the rendered UTC date. -/
def timestampToDateStr (s : String) : Option String :=
  if s = "" then some ""
  else (jsParseInt s).map (fun t => renderIsoDate (timestampToDate t))

/-- Year-of-era recovery: applying the day-of-era to year-of-era formula to
a day inside year `yoe` of an era yields `yoe` back. -/
theorem yoe_recover (yoe doy doe : Int)
    (hy0 : 0 ≤ yoe) (hy1 : yoe ≤ 399) (hd0 : 0 ≤ doy)
    (hd1 : doy ≤ 364 ∨
      (doy = 365 ∧ (yoe + 1) % 4 = 0 ∧ ((yoe + 1) % 100 ≠ 0 ∨ (yoe + 1) % 400 = 0)))
    (hdoe : doe = 365 * yoe + yoe / 4 - yoe / 100 + doy) :
    (doe - doe / 1460 + doe / 36524 - doe / 146096) / 365 = yoe := by
  obtain ⟨c, q, u, hcqu⟩ :
      ∃ c q u : Int, (0 ≤ c ∧ c ≤ 3) ∧ (0 ≤ q ∧ q ≤ 24) ∧ (0 ≤ u ∧ u ≤ 3)
        ∧ yoe = 100 * c + 4 * q + u :=
    ⟨yoe / 100, yoe % 100 / 4, yoe % 100 % 4, by omega⟩
  obtain ⟨⟨hc0, hc1⟩, ⟨hq0, hq1⟩, ⟨hu0, hu1⟩, hyeq⟩ := hcqu
  have hdoe2 : doe = 36524 * c + 1461 * q + 365 * u + doy := by omega
  have hd2 : doy ≤ 364 ∨ (doy = 365 ∧ u = 3 ∧ (¬q = 24 ∨ c = 3)) := by omega
  by_cases hmax : q = 24 ∧ u = 3 ∧ doy = 365
  · have hdoeV : doe = 146096 := by omega
    have hyoeV : yoe = 399 := by omega
    rw [hdoeV, hyoeV]
    decide
  · have h1 : doe / 36524 = c := by omega
    have h2 : doe / 146096 = 0 := by omega
    have h3 : doe / 1460 = 25 * c + q + (24 * c + q + 365 * u + doy) / 1460 := by omega
    have h4 : (24 * c + q + 365 * u + doy) / 1460
        = if 1460 ≤ 24 * c + q + 365 * u + doy then 1 else 0 := by
      split <;> omega
    split at h4 <;> omega

/-- Month and day-of-month recovery: for a day offset inside March-based
month `mp`, the month formula recovers `mp`. -/
theorem month_recover (mp d doy : Int) (hmp0 : 0 ≤ mp) (hmp1 : mp ≤ 11)
    (hd1 : 1 ≤ d) (hd31 : d ≤ 31)
    (h30 : mp = 1 ∨ mp = 3 ∨ mp = 6 ∨ mp = 8 → d ≤ 30)
    (hfeb : mp = 11 → d ≤ 29)
    (hdoy : doy = (153 * mp + 2) / 5 + d - 1) :
    (5 * doy + 2) / 153 = mp := by
  have hcases : mp = 0 ∨ mp = 1 ∨ mp = 2 ∨ mp = 3 ∨ mp = 4 ∨ mp = 5 ∨ mp = 6 ∨ mp = 7
      ∨ mp = 8 ∨ mp = 9 ∨ mp = 10 ∨ mp = 11 := by omega
  rcases hcases with h | h | h | h | h | h | h | h | h | h | h | h <;> subst h <;> omega

/-- Boolean leap test unfolded to arithmetic. -/
theorem isLeapYear_iff (y : Int) :
    isLeapYear y = true ↔ ((y % 4 = 0 ∧ y % 100 ≠ 0) ∨ y % 400 = 0) := by
  unfold isLeapYear
  simp [Bool.or_eq_true, Bool.and_eq_true, beq_iff_eq, bne_iff_ne]

/-- The civil-date conversions are mutually inverse on valid dates. -/
theorem civil_roundtrip (y m d : Int) (hv : validDate y m d) :
    civilOfEpochDays (epochDaysOfCivil y m d) = (y, m, d) := by
  obtain ⟨hy0, hy1, hm1, hm12, hdlo, hdhi⟩ := hv
  have hd31 : d ≤ 31 := by
    unfold daysInMonth at hdhi
    split_ifs at hdhi <;> omega
  have hd30 : m = 4 ∨ m = 6 ∨ m = 9 ∨ m = 11 → d ≤ 30 := by
    intro hm'
    unfold daysInMonth at hdhi
    split_ifs at hdhi <;> omega
  have hfeb : m = 2 → d ≤ 28 ∨ (d = 29 ∧ ((y % 4 = 0 ∧ y % 100 ≠ 0) ∨ y % 400 = 0)) := by
    intro hm2
    unfold daysInMonth at hdhi
    rw [if_pos hm2] at hdhi
    by_cases hl : isLeapYear y = true
    · rw [if_pos hl] at hdhi
      have := (isLeapYear_iff y).mp hl
      omega
    · rw [if_neg hl] at hdhi
      omega
  set b : Int := if m ≤ 2 then 1 else 0 with hbdef
  have hb : (m ≤ 2 ∧ b = 1) ∨ (3 ≤ m ∧ b = 0) := by
    rw [hbdef]; split <;> omega
  have hys : shiftedYear y m = y - b := by
    unfold shiftedYear
    rw [← hbdef]
  set era := forwardEra y m with heradef
  set yoe := forwardYoe y m with hyoedef
  have hyoeEq : y - b = 400 * era + yoe ∧ 0 ≤ yoe ∧ yoe ≤ 399 := by
    rw [hyoedef, heradef]
    unfold forwardYoe forwardEra
    rw [hys]
    omega
  set mp := forwardMp m with hmpdef
  have hmpEq : mp = (m + 9) % 12 := by
    rw [hmpdef]; unfold forwardMp; rfl
  have hmpB : (m ≤ 2 ∧ mp = m + 9) ∨ (3 ≤ m ∧ mp = m - 3) := by omega
  set doy := forwardDoy m d with hdoydef
  have hdoyEq : doy = (153 * mp + 2) / 5 + d - 1 := by
    rw [hdoydef, hmpdef]
    unfold forwardDoy
    rfl
  have h29 : mp = 11 → d ≤ 29 := by
    intro h11
    have hm2 : m = 2 := by omega
    rcases hfeb hm2 with h | h <;> omega
  have h30mp : mp = 1 ∨ mp = 3 ∨ mp = 6 ∨ mp = 8 → d ≤ 30 := by
    intro h
    apply hd30
    omega
  have hdoyB : 0 ≤ doy ∧ doy ≤ 365 ∧ (doy = 365 → m = 2 ∧ d = 29) := by omega
  have hdoyLeap : doy ≤ 364 ∨
      (doy = 365 ∧ (yoe + 1) % 4 = 0 ∧ ((yoe + 1) % 100 ≠ 0 ∨ (yoe + 1) % 400 = 0)) := by
    by_cases h365 : doy = 365
    · right
      obtain ⟨hm2, hd29⟩ := hdoyB.2.2 h365
      have hlp : (y % 4 = 0 ∧ y % 100 ≠ 0) ∨ y % 400 = 0 := by
        rcases hfeb hm2 with h | h <;> omega
      have hbm : b = 1 := by
        rcases hb with ⟨_, h⟩ | ⟨h3, _⟩ <;> omega
      refine ⟨h365, ?_, ?_⟩ <;> omega
    · left
      omega
  set doe := forwardDoe y m d with hdoedef
  have hdoeEq : doe = 365 * yoe + yoe / 4 - yoe / 100 + doy := by
    rw [hdoedef, hyoedef, hdoydef]
    unfold forwardDoe
    rfl
  have hdoeB : 0 ≤ doe ∧ doe ≤ 146096 := by omega
  set E := epochDaysOfCivil y m d with hEdef
  have hE : E = era * 146097 + doe - 719468 := by
    rw [hEdef, heradef, hdoedef]
    unfold epochDaysOfCivil
    rfl
  have hera' : civilEra E = era := by
    unfold civilEra
    rw [hE]
    omega
  have hdoe' : civilDoe E = doe := by
    unfold civilDoe
    rw [hera', hE]
    ring
  have hyoe' : civilYoe E = yoe := by
    unfold civilYoe
    rw [hdoe']
    exact yoe_recover yoe doy doe hyoeEq.2.1 hyoeEq.2.2 hdoyB.1 hdoyLeap hdoeEq
  have hdoy' : civilDoy E = doy := by
    unfold civilDoy
    rw [hdoe', hyoe']
    omega
  have hmp' : civilMp E = mp := by
    unfold civilMp
    rw [hdoy']
    exact month_recover mp d doy (by omega) (by omega) hdlo hd31 h30mp h29 hdoyEq
  have hd' : civilDay E = d := by
    unfold civilDay
    rw [hmp', hdoy']
    omega
  have hm' : civilMonth E = m := by
    unfold civilMonth
    rw [hmp']
    rcases hmpB with ⟨hle, hmp11⟩ | ⟨hge, hmp3⟩
    · rw [if_neg (by omega)]
      omega
    · rw [if_pos (by omega)]
      omega
  have hy' : civilYear E = y := by
    unfold civilYear
    rw [hyoe', hera', hm']
    rcases hb with ⟨hle, hb1⟩ | ⟨hge, hb0⟩
    · rw [if_pos hle]
      omega
    · rw [if_neg (by omega)]
      omega
  unfold civilOfEpochDays
  rw [hy', hm', hd']

/-- Claim C9: the converters round-trip: for every valid `YYYY-MM-DD` civil
date, converting to a Unix timestamp (UTC midnight, `dateToTimestamp`) and
back (`timestampToDate`, which renders the UTC date of the timestamp)
returns the same date; and at the string level both functions map the empty
string to the empty string. -/
theorem date_roundtrip :
    (dateToTimestampStr "" = "" ∧ timestampToDateStr "" = some "")
    ∧ (∀ y m d : Int, validDate y m d →
        timestampToDate (dateToTimestamp y m d) = (y, m, d)) := by
  refine ⟨⟨rfl, rfl⟩, fun y m d hv => ?_⟩
  unfold timestampToDate dateToTimestamp
  rw [Int.mul_ediv_cancel _ (by norm_num)]
  exact civil_roundtrip y m d hv

/-- Witness for C9 at a leap day and a year-end date. -/
theorem date_roundtrip_witness :
    timestampToDate (dateToTimestamp 2024 2 29) = (2024, 2, 29)
    ∧ timestampToDate (dateToTimestamp 1999 12 31) = (1999, 12, 31) :=
  ⟨date_roundtrip.2 2024 2 29 (by decide), date_roundtrip.2 1999 12 31 (by decide)⟩

end Awacs
